import Mathlib

/-!
Shallow embedding of the investment-tracking application (models.py, app.py,
iol_service.py, executive_report_service.py) and proofs about its valuation,
price-history, rating, quote-client and aggregation logic.

Numeric `Float` columns are modelled as `ℚ`; calendar dates and datetimes as
`ℤ` (a day / minute count); nullable columns as `Option`.  All definitions
come first, followed by the theorems.
-/

namespace AppInv

/-! ## Helpers -/

/-- Python `round(x, 2)`: rounding to 2 decimal places (tie behaviour at exact
half-cents is immaterial to every statement below). -/
def round2 (x : ℚ) : ℚ := ((round (100 * x) : ℤ) : ℚ) / 100

/-- Python truthiness of an optional numeric value: `None` and `0` are falsy. -/
def truthyQ : Option ℚ → Bool
  | none => false
  | some q => q ≠ 0

/-- Python truthiness of an optional string: `None` and `""` are falsy. -/
def truthyS : Option String → Bool
  | none => false
  | some s => s ≠ ""

/-- Python `str.upper()`: uppercase every character. -/
def upper (s : String) : String := ⟨s.data.map Char.toUpper⟩

/-! ## models.py: Investment (fixed-term record) -/

/-- `Investment` record (models.py).  `amount` is the principal, `interest_rate`
is nullable, `start_date`/`end_date` are nullable calendar dates (day numbers). -/
structure Investment where
  name : String
  investment_type : String
  amount : ℚ
  currency : String
  interest_rate : Option ℚ
  start_date : Option ℤ
  end_date : Option ℤ
  status : String

/-- `Investment.calculated_return` (models.py lines 143-149): for
`plazo_fijo` with truthy rate and both dates present,
`amount * (rate/100) * (days/365)` where `days = end_date - start_date`;
otherwise `0`.  The Python condition uses truthiness, so a present but zero
rate falls to the `0` branch (which coincides with the formula). -/
def Investment.calculated_return (inv : Investment) : ℚ :=
  if inv.investment_type = "plazo_fijo" ∧ truthyQ inv.interest_rate
      ∧ inv.start_date.isSome ∧ inv.end_date.isSome then
    let days : ℤ := inv.end_date.getD 0 - inv.start_date.getD 0
    inv.amount * (inv.interest_rate.getD 0 / 100) * ((days : ℚ) / 365)
  else 0

/-- `Investment.total_at_maturity` (models.py lines 151-154). -/
def Investment.total_at_maturity (inv : Investment) : ℚ :=
  inv.amount + inv.calculated_return

/-! ## models.py: Stock, PortfolioStock, Portfolio -/

/-- `Stock` record (models.py): instrument with a mutable current price. -/
structure Stock where
  id : ℕ
  symbol : String
  name : String
  stock_type : String
  current_price : ℚ
  last_updated : Option ℤ
deriving DecidableEq

/-- `PortfolioStock` (models.py): a holding; `stock` is the referenced
instrument row (the ORM relationship). -/
structure PortfolioStock where
  quantity : ℚ
  purchase_price : ℚ
  stock : Stock
deriving DecidableEq

/-- `PortfolioStock.current_value` (models.py lines 211-213):
`quantity * stock.current_price if stock.current_price else 0`. -/
def PortfolioStock.current_value (ps : PortfolioStock) : ℚ :=
  if ps.stock.current_price ≠ 0 then ps.quantity * ps.stock.current_price else 0

/-- `PortfolioStock.gain_loss` (models.py lines 215-217). -/
def PortfolioStock.gain_loss (ps : PortfolioStock) : ℚ :=
  ps.current_value - ps.quantity * ps.purchase_price

/-- `PortfolioStock.gain_loss_percentage` (models.py lines 219-224). -/
def PortfolioStock.gain_loss_percentage (ps : PortfolioStock) : ℚ :=
  let cost := ps.quantity * ps.purchase_price
  if cost = 0 then 0 else (ps.current_value - cost) / cost * 100

/-- A `Portfolio`'s holdings (models.py `Portfolio.stocks`). -/
structure Portfolio where
  name : String
  stocks : List PortfolioStock

/-- `Portfolio.total_value` (models.py lines 172-174). -/
def Portfolio.total_value (p : Portfolio) : ℚ :=
  (p.stocks.map PortfolioStock.current_value).sum

/-! ## Price history upsert (app.py lines 589-608 and 57-74) -/

/-- `PriceHistory` row (models.py lines 227-238): one price sample. -/
structure PriceHistory where
  stock_id : ℕ
  price : ℚ
  volume : Option ℤ
  date : ℤ
deriving DecidableEq

/-- The shared price-recording write path (`stock_update_price`,
`update_prices_from_iol`, `stocks_update_from_iol` in app.py; the spec's
`record_price`): query the first sample with this (stock_id, date); if found,
overwrite its price in place, otherwise insert a new sample. -/
def record_price : List PriceHistory → ℕ → ℤ → ℚ → List PriceHistory
  | [], sid, d, p => [⟨sid, p, none, d⟩]
  | ph :: rest, sid, d, p =>
    if ph.stock_id = sid ∧ ph.date = d then { ph with price := p } :: rest
    else ph :: record_price rest sid d p

/-! ## Broker ratings (app.py lines 254-281, models.py lines 107-119) -/

/-- `BrokerRating` row (models.py): one rating of one broker by one user in
one category; the table carries a uniqueness constraint on the triple. -/
structure BrokerRating where
  broker_id : ℕ
  user_id : ℕ
  category : String
  rating : ℤ
deriving DecidableEq

/-- `broker_rate` (app.py lines 256-281): query the first rating with this
(broker, user, category); if found, overwrite its value in place, otherwise
insert a new rating row. -/
def broker_rate : List BrokerRating → ℕ → ℕ → String → ℤ → List BrokerRating
  | [], bid, uid, cat, v => [⟨bid, uid, cat, v⟩]
  | r :: rest, bid, uid, cat, v =>
    if r.broker_id = bid ∧ r.user_id = uid ∧ r.category = cat then
      { r with rating := v } :: rest
    else r :: broker_rate rest bid uid cat v

/-! ## Broker aggregation (executive_report_service.py lines 85-182) -/

/-- Per-portfolio cost basis: the `portfolio_data` loop's `invested`
accumulation (executive_report_service.py lines 119-124). -/
def portfolio_invested (p : Portfolio) : ℚ :=
  (p.stocks.map (fun ps => ps.quantity * ps.purchase_price)).sum

/-- Per-portfolio gain/loss: the `portfolio_data` loop's `gain_loss`
accumulation (executive_report_service.py lines 119-126). -/
def portfolio_gain_loss (p : Portfolio) : ℚ :=
  (p.stocks.map PortfolioStock.gain_loss).sum

/-- The data a broker's aggregation reads: its portfolios and its investment
records (ORM relationships `broker.portfolios`, `broker.investments`). -/
structure BrokerData where
  portfolios : List Portfolio
  investments : List Investment

/-- The three running totals of `broker_data` in `get_detailed_broker_data`. -/
structure BrokerTotals where
  total_invested : ℚ
  total_current : ℚ
  total_gain_loss : ℚ
deriving DecidableEq

/-- The totals computed by `get_detailed_broker_data`
(executive_report_service.py lines 85-182): an inner loop accumulates each
portfolio's invested / current / gain-loss over its holdings and adds them to
the broker's running totals; a second loop then adds each `active`
investment's `amount` to both `total_invested` and `total_current`. -/
def get_detailed_broker_totals (b : BrokerData) : BrokerTotals :=
  let afterPortfolios : BrokerTotals := b.portfolios.foldl
    (fun acc p =>
      let pd := p.stocks.foldl
        (fun acc2 ps =>
          (acc2.1 + ps.quantity * ps.purchase_price, acc2.2.1 + ps.current_value,
            acc2.2.2 + ps.gain_loss))
        ((0 : ℚ), (0 : ℚ), (0 : ℚ))
      { total_invested := acc.total_invested + pd.1,
        total_current := acc.total_current + pd.2.1,
        total_gain_loss := acc.total_gain_loss + pd.2.2 })
    ⟨0, 0, 0⟩
  b.investments.foldl
    (fun acc inv =>
      if inv.status = "active" then
        { acc with total_invested := acc.total_invested + inv.amount,
                   total_current := acc.total_current + inv.amount }
      else acc)
    afterPortfolios

/-! ## IOL quote client (iol_service.py) -/

/-- The requests the client can issue to the external provider: a
password-grant token exchange, a refresh-grant token exchange, or a quote
lookup for one symbol. -/
inductive IOLRequest where
  | tokenPassword
  | tokenRefresh
  | quote (symbol : String)
deriving DecidableEq

/-- A token-exchange request (either grant) against the `/token` endpoint. -/
def IOLRequest.isTokenExchange : IOLRequest → Bool
  | .tokenPassword => true
  | .tokenRefresh => true
  | .quote _ => false

/-- Provider behaviour for one `/token` call: HTTP 200 with the JSON token
fields, a non-200 status, or a transport exception. -/
inductive TokenOutcome where
  | ok (access_token refresh_token : Option String)
  | httpError (status : ℕ)
  | exn (msg : String)

/-- Parsed JSON body of a 200 quote response (iol_service.py lines 113-127);
`ultimoPrecio` may be absent.  The `fechaHora` timestamp and the raw payload
are immaterial to every claim and are not modelled. -/
structure QuotePayload where
  ultimoPrecio : Option ℚ
  variacion : Option ℚ
  volumen : Option ℤ
deriving DecidableEq

/-- Provider behaviour for one quote call. -/
inductive QuoteOutcome where
  | ok (payload : QuotePayload)
  | httpError (status : ℕ)
  | exn (msg : String)

/-- The external provider, as the client observes it during one call
sequence: a response per grant kind and a response per symbol. -/
structure Provider where
  password_grant : TokenOutcome
  refresh_grant : TokenOutcome
  quote : String → QuoteOutcome

/-- The client's mutable token state (iol_service.py lines 17-22). -/
structure IOLState where
  access_token : Option String
  refresh_token : Option String
  token_expiry : Option ℤ
deriving DecidableEq

/-- The dict returned by `get_bond_price` (iol_service.py lines 94-134): on
success the keys `symbol`, `price`, `variation`, `volume` with no `error`
key; on failure `symbol`, a `None` price and an `error` message. -/
structure PriceResult where
  symbol : String
  price : Option ℚ
  variation : Option ℚ
  volume : Option ℤ
  error : Option String
deriving DecidableEq

/-- `IOLService.authenticate` (iol_service.py lines 24-51): POST the password
grant; on 200 store the token fields and an expiry 14 minutes from now and
report success; on non-200 or exception leave the state unchanged and report
failure.  Returns (success, new state, requests issued). -/
def authenticate (pv : Provider) (now : ℤ) (st : IOLState) :
    Bool × IOLState × List IOLRequest :=
  match pv.password_grant with
  | .ok atk rtk => (true, ⟨atk, rtk, some (now + 14)⟩, [.tokenPassword])
  | .httpError _ => (false, st, [.tokenPassword])
  | .exn _ => (false, st, [.tokenPassword])

/-- `IOLService.refresh_access_token` (iol_service.py lines 53-76): POST the
refresh grant; on 200 store the new tokens and expiry; on non-200 or
exception fall back to `authenticate`. -/
def refresh_access_token (pv : Provider) (now : ℤ) (st : IOLState) :
    Bool × IOLState × List IOLRequest :=
  match pv.refresh_grant with
  | .ok atk rtk => (true, ⟨atk, rtk, some (now + 14)⟩, [.tokenRefresh])
  | .httpError _ =>
    let r := authenticate pv now st
    (r.1, r.2.1, .tokenRefresh :: r.2.2)
  | .exn _ =>
    let r := authenticate pv now st
    (r.1, r.2.1, .tokenRefresh :: r.2.2)

/-- `IOLService.ensure_authenticated` (iol_service.py lines 78-86): with no
(truthy) token or no expiry, authenticate; past expiry, refresh; otherwise
succeed with no request. -/
def ensure_authenticated (pv : Provider) (now : ℤ) (st : IOLState) :
    Bool × IOLState × List IOLRequest :=
  if ¬ truthyS st.access_token ∨ st.token_expiry = none then
    authenticate pv now st
  else if st.token_expiry.getD 0 ≤ now then
    refresh_access_token pv now st
  else (true, st, [])

/-- `IOLService.get_bond_price` (iol_service.py lines 94-134): ensure
authentication (returning an `Auth failed` result if it fails), then issue
one quote request; 200 yields the payload's (possibly absent) price with no
error key; non-200 or an exception yields a `None` price with an error
message.  No path raises. -/
def get_bond_price (pv : Provider) (now : ℤ) (st : IOLState) (symbol : String) :
    PriceResult × IOLState × List IOLRequest :=
  let a := ensure_authenticated pv now st
  if a.1 = false then
    (⟨symbol, none, none, none, some "Auth failed"⟩, a.2.1, a.2.2)
  else
    match pv.quote symbol with
    | .ok payload =>
      (⟨symbol, payload.ultimoPrecio, payload.variacion, payload.volumen, none⟩,
        a.2.1, a.2.2 ++ [.quote symbol])
    | .httpError status =>
      (⟨symbol, none, none, none, some ("HTTP " ++ toString status)⟩,
        a.2.1, a.2.2 ++ [.quote symbol])
    | .exn msg =>
      (⟨symbol, none, none, none, some msg⟩, a.2.1, a.2.2 ++ [.quote symbol])

/-- Python dict assignment `results[k] = v`: overwrite in place if the key
exists, else append. -/
def dictInsert (m : List (String × PriceResult)) (k : String) (v : PriceResult) :
    List (String × PriceResult) :=
  if m.any (fun e => e.1 = k) then m.map (fun e => if e.1 = k then (k, v) else e)
  else m ++ [(k, v)]

/-- `IOLService.get_multiple_prices` (iol_service.py lines 136-152):
sequential fan-out of `get_bond_price` over the uppercased symbols,
collecting each result into a dict keyed by the requested symbol and
threading the client's token state through the loop. -/
def get_multiple_prices (pv : Provider) (now : ℤ) (symbols : List String)
    (st : IOLState) : List (String × PriceResult) × IOLState :=
  symbols.foldl
    (fun acc s =>
      let r := get_bond_price pv now acc.2 (upper s)
      (dictInsert acc.1 s r.1, r.2.1))
    ([], st)

/-! ## Price refresh cycle (app.py lines 57-74 and 644-662) -/

/-- The tables the refresh cycle writes: the stocks and the price history. -/
structure PriceDB where
  stocks : List Stock
  history : List PriceHistory
deriving DecidableEq

/-- One iteration of the per-symbol update loop shared by
`update_prices_from_iol` (app.py lines 57-74) and `stocks_update_from_iol`
(app.py lines 644-662): look the stock up by symbol; only when the fetched
`price` field is truthy (present and nonzero), overwrite `current_price` and
`last_updated` and upsert a history sample for today; otherwise (including
the error branch, which only collects a message) write nothing. -/
def update_stock_from_price_data (db : PriceDB) (now today : ℤ) (symbol : String)
    (price_data : PriceResult) : PriceDB :=
  match db.stocks.find? (fun s => s.symbol = symbol) with
  | none => db
  | some stock =>
    if truthyQ price_data.price then
      { stocks := db.stocks.map (fun s =>
          if s.id = stock.id then
            { s with current_price := price_data.price.getD 0, last_updated := some now }
          else s),
        history := record_price db.history stock.id today (price_data.price.getD 0) }
    else db

/-! ## Portfolio value history (app.py lines 766-842, `api_portfolio_value_history`) -/

/-- The `stock_quantities` dict (app.py line 791) read back with
`.get(stock_id, 0)`: the quantity of the last holding with this stock id,
`0` if none. -/
def stock_quantity (pss : List PortfolioStock) (sid : ℕ) : ℚ :=
  match (pss.filter (fun ps => ps.stock.id = sid)).getLast? with
  | some ps => ps.quantity
  | none => 0

/-- The inner dict `prices_by_date[d]` (app.py lines 800-805) read at a stock
id: the price of the last loaded sample for (d, sid), `0` if none (the code
never reads an absent key). -/
def day_price (history : List PriceHistory) (d : ℤ) (sid : ℕ) : ℚ :=
  match (history.filter (fun ph => ph.date = d ∧ ph.stock_id = sid)).getLast? with
  | some ph => ph.price
  | none => 0

/-- The key set of `prices_by_date[d]`: the distinct stock ids having a
loaded sample on date `d`. -/
def day_stock_ids (history : List PriceHistory) (d : ℤ) : List ℕ :=
  ((history.filter (fun ph => ph.date = d)).map PriceHistory.stock_id).dedup

/-- `total_value` for one date (app.py lines 812-816): sum of
`stock_quantities.get(stock_id, 0) * price` over the day's dict entries. -/
def day_total (pss : List PortfolioStock) (history : List PriceHistory) (d : ℤ) : ℚ :=
  ((day_stock_ids history d).map
    (fun sid => stock_quantity pss sid * day_price history d sid)).sum

/-- Insert a date into an ascending list, keeping it ascending. -/
def insertSorted (x : ℤ) : List ℤ → List ℤ
  | [] => [x]
  | y :: ys => if x ≤ y then x :: y :: ys else y :: insertSorted x ys

/-- Ascending insertion sort over dates. -/
def sortDates : List ℤ → List ℤ
  | [] => []
  | x :: xs => insertSorted x (sortDates xs)

/-- `sorted(prices_by_date.keys())` (app.py line 811): the distinct sample
dates in ascending order. -/
def history_dates (history : List PriceHistory) : List ℤ :=
  sortDates ((history.map PriceHistory.date).dedup)

/-- `api_portfolio_value_history` (app.py lines 766-842), restricted to the
emitted (date, value) series: per ascending date, emit the rounded day total
when it is strictly positive; if nothing was emitted and the live portfolio
value is positive, emit today paired with that (rounded) live value. -/
def api_portfolio_value_history (pss : List PortfolioStock)
    (history : List PriceHistory) (today : ℤ) : List (ℤ × ℚ) :=
  let current_value := (pss.map PortfolioStock.current_value).sum
  let pts := (history_dates history).filterMap (fun d =>
    if day_total pss history d > 0 then some (d, round2 (day_total pss history d))
    else none)
  if pts = [] ∧ current_value > 0 then [(today, round2 current_value)] else pts

/-- The day total as the specification words it: the sum, over the
instruments that have a sample on that date, of the holding's quantity times
that day's sample price; instruments without a sample that day contribute
nothing. -/
def spec_day_total (pss : List PortfolioStock) (history : List PriceHistory)
    (d : ℤ) : ℚ :=
  ((pss.filter (fun ps =>
      history.any (fun ph => ph.stock_id = ps.stock.id ∧ ph.date = d))).map
    (fun ps => ps.quantity * day_price history d ps.stock.id)).sum

/-- The value-history series as the specification words it: group samples by
date, emit ascending dates with 2-decimal-rounded positive totals per
`spec_day_total`, dropping non-positive totals, and fall back to a single
synthetic point (today, live portfolio value, under the same 2-decimal
rounding) when no date yields a positive total and the live value is
positive. -/
def spec_value_history (pss : List PortfolioStock) (history : List PriceHistory)
    (today : ℤ) : List (ℤ × ℚ) :=
  let current_value := (pss.map PortfolioStock.current_value).sum
  let pts := (history_dates history).filterMap (fun d =>
    if spec_day_total pss history d > 0 then
      some (d, round2 (spec_day_total pss history d))
    else none)
  if pts = [] ∧ current_value > 0 then [(today, round2 current_value)] else pts

/-- The day total under the amended reading: the holdings are first collapsed
into an instrument → quantity mapping in which a later holding of the same
instrument overwrites an earlier one (the dict comprehension at app.py line
791), and the total is the sum over the distinct instruments that have a
sample on the date of mapped quantity times that day's price. -/
def spec_day_total_mapped (pss : List PortfolioStock) (history : List PriceHistory)
    (d : ℤ) : ℚ :=
  (((pss.map (fun ps => ps.stock.id)).dedup.filter (fun sid =>
      history.any (fun ph => ph.stock_id = sid ∧ ph.date = d))).map
    (fun sid => stock_quantity pss sid * day_price history d sid)).sum

/-- The value-history series under the amended wording: as
`spec_value_history` but with the per-date totals of `spec_day_total_mapped`
(instrument → quantity mapping, later lots overwriting earlier ones). -/
def spec_value_history_mapped (pss : List PortfolioStock)
    (history : List PriceHistory) (today : ℤ) : List (ℤ × ℚ) :=
  let current_value := (pss.map PortfolioStock.current_value).sum
  let pts := (history_dates history).filterMap (fun d =>
    if spec_day_total_mapped pss history d > 0 then
      some (d, round2 (spec_day_total_mapped pss history d))
    else none)
  if pts = [] ∧ current_value > 0 then [(today, round2 current_value)] else pts

/-! ## Theorems: C3 (fixed-term return) -/

/-- C3: for `plazo_fijo` with rate, start and end all present the calculated
return is `principal * (rate/100) * (days/365)` with `days = end - start`;
for any other type or any missing field it is `0`; and `total_at_maturity`
is always principal plus calculated return. -/
theorem calculated_return_spec :
    (∀ (inv : Investment) (r : ℚ) (s e : ℤ),
        inv.investment_type = "plazo_fijo" →
        inv.interest_rate = some r → inv.start_date = some s →
        inv.end_date = some e →
        inv.calculated_return = inv.amount * (r / 100) * (((e - s : ℤ) : ℚ) / 365))
    ∧ (∀ inv : Investment,
        (inv.investment_type ≠ "plazo_fijo" ∨ inv.interest_rate = none ∨
          inv.start_date = none ∨ inv.end_date = none) →
        inv.calculated_return = 0)
    ∧ (∀ inv : Investment, inv.total_at_maturity = inv.amount + inv.calculated_return) := by
  refine ⟨?_, ?_, fun inv => rfl⟩
  · intro inv r s e ht hr hs he
    unfold Investment.calculated_return
    rcases eq_or_ne r 0 with h0 | h0
    · have : truthyQ inv.interest_rate = false := by
        rw [hr, h0]; simp [truthyQ]
      rw [if_neg (by simp [this])]
      rw [h0]; ring
    · have htr : truthyQ inv.interest_rate = true := by
        rw [hr]; simp [truthyQ, h0]
      rw [if_pos ⟨ht, htr, by rw [hs]; rfl, by rw [he]; rfl⟩]
      rw [hr, hs, he]
      simp [Option.getD]
  · intro inv h
    unfold Investment.calculated_return
    rcases h with h | h | h | h
    · rw [if_neg]; intro hc; exact h hc.1
    · rw [if_neg]; intro hc; rw [h] at hc; exact absurd hc.2.1 (by simp [truthyQ])
    · rw [if_neg]; intro hc; rw [h] at hc; exact absurd hc.2.2.1 (by simp)
    · rw [if_neg]; intro hc; rw [h] at hc; exact absurd hc.2.2.2 (by simp)

/-- Witness for C3 at the spec's own example: principal 100000, rate 40,
182 days, giving return 100000 · (40/100) · (182/365). -/
theorem calculated_return_spec_witness :
    ({ name := "pf", investment_type := "plazo_fijo", amount := 100000,
       currency := "ARS", interest_rate := some 40, start_date := some 0,
       end_date := some 182, status := "active" } : Investment).calculated_return
      = 100000 * (40 / 100) * ((182 : ℚ) / 365) := by
  have h := calculated_return_spec.1
    { name := "pf", investment_type := "plazo_fijo", amount := 100000,
      currency := "ARS", interest_rate := some 40, start_date := some 0,
      end_date := some 182, status := "active" } 40 0 182 rfl rfl rfl rfl
  simpa using h

/-! ## Theorems: C4 and C9 (holding valuation) -/

/-- C4: gain/loss percentage is `0` when cost (quantity · purchase price) is
zero, and `gain_loss / cost * 100` otherwise, so the division in the source is
only ever reached with a nonzero divisor. -/
theorem gain_loss_percentage_spec (ps : PortfolioStock) :
    (ps.quantity * ps.purchase_price = 0 → ps.gain_loss_percentage = 0)
    ∧ (ps.quantity * ps.purchase_price ≠ 0 →
        ps.gain_loss_percentage = ps.gain_loss / (ps.quantity * ps.purchase_price) * 100) := by
  constructor
  · intro h
    unfold PortfolioStock.gain_loss_percentage
    simp [h]
  · intro h
    unfold PortfolioStock.gain_loss_percentage PortfolioStock.gain_loss
    simp [h]

/-- Witness for C4 at a zero-cost holding. -/
theorem gain_loss_percentage_spec_witness :
    ({ quantity := 0, purchase_price := 5,
       stock := { id := 1, symbol := "AL30", name := "AL30", stock_type := "bono",
                  current_price := 7, last_updated := none } } : PortfolioStock).gain_loss_percentage = 0 := by
  have h := (gain_loss_percentage_spec
    { quantity := 0, purchase_price := 5,
      stock := { id := 1, symbol := "AL30", name := "AL30", stock_type := "bono",
                 current_price := 7, last_updated := none } }).1
  exact h (by norm_num)

/-- C9: for every holding with positive cost, current value equals gain/loss
plus quantity times purchase price. -/
theorem current_value_eq_gain_loss_add_cost (ps : PortfolioStock)
    (h : 0 < ps.quantity * ps.purchase_price) :
    ps.current_value = ps.gain_loss + ps.quantity * ps.purchase_price := by
  unfold PortfolioStock.gain_loss
  ring

/-- Witness for C9 at a concrete holding with positive cost. -/
theorem current_value_eq_gain_loss_add_cost_witness :
    ({ quantity := 10, purchase_price := 3,
       stock := { id := 2, symbol := "GD30", name := "GD30", stock_type := "bono",
                  current_price := 4, last_updated := none } } : PortfolioStock).current_value
      = ({ quantity := 10, purchase_price := 3,
           stock := { id := 2, symbol := "GD30", name := "GD30", stock_type := "bono",
                      current_price := 4, last_updated := none } } : PortfolioStock).gain_loss
        + 10 * 3 :=
  current_value_eq_gain_loss_add_cost
    { quantity := 10, purchase_price := 3,
      stock := { id := 2, symbol := "GD30", name := "GD30", stock_type := "bono",
                 current_price := 4, last_updated := none } } (by norm_num)

/-! ## Theorems: C2 (price upsert) -/

theorem record_price_filter_eq (store : List PriceHistory) (sid : ℕ) (d : ℤ) (p : ℚ)
    (h : ((store.filter (fun ph => ph.stock_id = sid ∧ ph.date = d)).length ≤ 1)) :
    ((record_price store sid d p).filter
        (fun ph => ph.stock_id = sid ∧ ph.date = d)).map PriceHistory.price = [p] := by
  induction store with
  | nil => simp [record_price]
  | cons ph rest ih =>
    by_cases hk : ph.stock_id = sid ∧ ph.date = d
    · have hrest : rest.filter (fun ph => ph.stock_id = sid ∧ ph.date = d) = [] := by
        rw [List.filter_cons_of_pos (by simpa using hk)] at h
        simpa using List.eq_nil_of_length_eq_zero (Nat.le_zero.mp (Nat.lt_succ_iff.mp h))
      rw [record_price, if_pos hk]
      rw [List.filter_cons_of_pos (by simpa using hk), hrest]
      rfl
    · rw [record_price, if_neg hk]
      rw [List.filter_cons_of_neg (by simpa using hk)]
      refine ih ?_
      rwa [List.filter_cons_of_neg (by simpa using hk)] at h

/-- C2: starting from any store with at most one sample per (instrument, date)
— the database uniqueness invariant — recording a price twice for the same
(instrument, date), first `p1` then `p2`, leaves exactly one sample for that
key, and it holds `p2`; with `p1 = p2` this gives idempotence. -/
theorem record_price_overwrite (store : List PriceHistory) (sid : ℕ) (d : ℤ) (p1 p2 : ℚ)
    (hinv : (store.filter (fun ph => ph.stock_id = sid ∧ ph.date = d)).length ≤ 1) :
    ((record_price (record_price store sid d p1) sid d p2).filter
        (fun ph => ph.stock_id = sid ∧ ph.date = d)).map PriceHistory.price = [p2] := by
  refine record_price_filter_eq _ sid d p2 ?_
  have h1 := record_price_filter_eq store sid d p1 hinv
  have : ((record_price store sid d p1).filter
      (fun ph => ph.stock_id = sid ∧ ph.date = d)).length = 1 := by
    have := congrArg List.length h1
    simpa using this
  omega

/-- Witness for C2: two writes to an empty store for stock 1 on day 0,
prices 10 then 20, leave one sample holding 20. -/
theorem record_price_overwrite_witness :
    ((record_price (record_price [] 1 0 10) 1 0 20).filter
        (fun ph => ph.stock_id = 1 ∧ ph.date = 0)).map PriceHistory.price = [20] := by
  have h := record_price_overwrite [] 1 0 10 20 (by simp)
  simpa using h

/-! ## Theorems: C8 (rating upsert) -/

theorem broker_rate_filter_eq (store : List BrokerRating) (bid uid : ℕ) (cat : String) (v : ℤ)
    (h : ((store.filter
        (fun r => r.broker_id = bid ∧ r.user_id = uid ∧ r.category = cat)).length ≤ 1)) :
    ((broker_rate store bid uid cat v).filter
        (fun r => r.broker_id = bid ∧ r.user_id = uid ∧ r.category = cat)).map
      BrokerRating.rating = [v] := by
  induction store with
  | nil => simp [broker_rate]
  | cons r rest ih =>
    by_cases hk : r.broker_id = bid ∧ r.user_id = uid ∧ r.category = cat
    · have hrest : rest.filter
          (fun r => r.broker_id = bid ∧ r.user_id = uid ∧ r.category = cat) = [] := by
        rw [List.filter_cons_of_pos (by simpa using hk)] at h
        simpa using List.eq_nil_of_length_eq_zero (Nat.le_zero.mp (Nat.lt_succ_iff.mp h))
      rw [broker_rate, if_pos hk]
      rw [List.filter_cons_of_pos (by simpa using hk), hrest]
      rfl
    · rw [broker_rate, if_neg hk]
      rw [List.filter_cons_of_neg (by simpa using hk)]
      refine ih ?_
      rwa [List.filter_cons_of_neg (by simpa using hk)] at h

/-- C8: starting from any store satisfying the (broker, user, category)
uniqueness invariant, rating the same triple twice — first `v1` then `v2` —
leaves exactly one stored rating for the triple, equal to `v2`: the second
submission overwrites rather than duplicates. -/
theorem broker_rate_overwrite (store : List BrokerRating) (bid uid : ℕ) (cat : String)
    (v1 v2 : ℤ)
    (hinv : (store.filter
        (fun r => r.broker_id = bid ∧ r.user_id = uid ∧ r.category = cat)).length ≤ 1) :
    ((broker_rate (broker_rate store bid uid cat v1) bid uid cat v2).filter
        (fun r => r.broker_id = bid ∧ r.user_id = uid ∧ r.category = cat)).map
      BrokerRating.rating = [v2] := by
  refine broker_rate_filter_eq _ bid uid cat v2 ?_
  have h1 := broker_rate_filter_eq store bid uid cat v1 hinv
  have : ((broker_rate store bid uid cat v1).filter
      (fun r => r.broker_id = bid ∧ r.user_id = uid ∧ r.category = cat)).length = 1 := by
    have := congrArg List.length h1
    simpa using this
  omega

/-- Witness for C8: rating broker 1 twice by user 2 in category "general",
values 3 then 5, leaves one rating equal to 5. -/
theorem broker_rate_overwrite_witness :
    ((broker_rate (broker_rate [] 1 2 "general" 3) 1 2 "general" 5).filter
        (fun r => r.broker_id = 1 ∧ r.user_id = 2 ∧ r.category = "general")).map
      BrokerRating.rating = [5] := by
  have h := broker_rate_overwrite [] 1 2 "general" 3 5 (by simp)
  simpa using h

/-! ## Theorems: C7 (broker totals) -/

theorem stocks_foldl_accum (l : List PortfolioStock) (a : ℚ × ℚ × ℚ) :
    l.foldl (fun acc2 ps =>
        (acc2.1 + ps.quantity * ps.purchase_price, acc2.2.1 + ps.current_value,
          acc2.2.2 + ps.gain_loss)) a
      = (a.1 + (l.map (fun ps => ps.quantity * ps.purchase_price)).sum,
         a.2.1 + (l.map PortfolioStock.current_value).sum,
         a.2.2 + (l.map PortfolioStock.gain_loss).sum) := by
  induction l generalizing a with
  | nil => simp
  | cons ps rest ih =>
    simp only [List.foldl_cons, List.map_cons, List.sum_cons, ih]
    simp only [Prod.mk.injEq]
    refine ⟨by ring, by ring, by ring⟩

theorem portfolios_foldl_accum (l : List Portfolio) (a : BrokerTotals) :
    l.foldl (fun acc p =>
        let pd := p.stocks.foldl
          (fun acc2 ps =>
            (acc2.1 + ps.quantity * ps.purchase_price, acc2.2.1 + ps.current_value,
              acc2.2.2 + ps.gain_loss))
          ((0 : ℚ), (0 : ℚ), (0 : ℚ))
        { total_invested := acc.total_invested + pd.1,
          total_current := acc.total_current + pd.2.1,
          total_gain_loss := acc.total_gain_loss + pd.2.2 }) a
      = { total_invested := a.total_invested + (l.map portfolio_invested).sum,
          total_current := a.total_current + (l.map Portfolio.total_value).sum,
          total_gain_loss := a.total_gain_loss + (l.map portfolio_gain_loss).sum } := by
  induction l generalizing a with
  | nil => cases a; simp
  | cons p rest ih =>
    rw [List.foldl_cons, ih]
    simp only [stocks_foldl_accum, List.map_cons, List.sum_cons, BrokerTotals.mk.injEq,
      portfolio_invested, Portfolio.total_value, portfolio_gain_loss]
    refine ⟨by ring, by ring, by ring⟩

theorem investments_foldl_accum (l : List Investment) (a : BrokerTotals) :
    l.foldl (fun acc inv =>
        if inv.status = "active" then
          { acc with total_invested := acc.total_invested + inv.amount,
                     total_current := acc.total_current + inv.amount }
        else acc) a
      = { total_invested := a.total_invested
            + ((l.filter (fun inv => inv.status = "active")).map Investment.amount).sum,
          total_current := a.total_current
            + ((l.filter (fun inv => inv.status = "active")).map Investment.amount).sum,
          total_gain_loss := a.total_gain_loss } := by
  induction l generalizing a with
  | nil => cases a; simp
  | cons inv rest ih =>
    by_cases ha : inv.status = "active"
    · rw [List.foldl_cons, if_pos ha, ih]
      simp only [List.filter_cons, ha, List.map_cons, List.sum_cons]
      simp only [BrokerTotals.mk.injEq]
      refine ⟨by simp; ring, by simp; ring, by simp⟩
    · rw [List.foldl_cons, if_neg ha, ih]
      simp [List.filter_cons, ha]

/-- C7: the broker totals equal the sum of portfolio cost bases / portfolio
values / portfolio gain-losses, with the principal of every active investment
record added to both `total_invested` and `total_current` and nothing added to
`total_gain_loss`: active fixed-term records contribute zero gain/loss, and
their accrued interest never enters the current figure. -/
theorem get_detailed_broker_totals_spec (b : BrokerData) :
    get_detailed_broker_totals b =
      { total_invested := (b.portfolios.map portfolio_invested).sum
          + ((b.investments.filter (fun inv => inv.status = "active")).map
              Investment.amount).sum,
        total_current := (b.portfolios.map Portfolio.total_value).sum
          + ((b.investments.filter (fun inv => inv.status = "active")).map
              Investment.amount).sum,
        total_gain_loss := (b.portfolios.map portfolio_gain_loss).sum } := by
  unfold get_detailed_broker_totals
  rw [portfolios_foldl_accum, investments_foldl_accum]
  simp

/-! ## Theorems: C10 (refresh cycle writes nothing on an untruthy price) -/

/-- C10: in a price-refresh iteration, a fetch result whose `price` field is
absent (`None` — which covers error results) or exactly `0` leaves the stock
table and the price-history table completely unchanged: a provider-quoted
price of `0` is treated exactly like a failed fetch. -/
theorem update_stock_skips_untruthy_price (db : PriceDB) (now today : ℤ)
    (symbol : String) (pd : PriceResult)
    (h : pd.price = none ∨ pd.price = some 0) :
    update_stock_from_price_data db now today symbol pd = db := by
  have ht : truthyQ pd.price = false := by
    rcases h with h | h <;> simp [h, truthyQ]
  unfold update_stock_from_price_data
  cases hf : db.stocks.find? (fun s => s.symbol = symbol) with
  | none => rfl
  | some stock => simp [ht]

/-- Witness for C10: a zero quoted price for a tracked stock changes nothing. -/
theorem update_stock_skips_untruthy_price_witness :
    update_stock_from_price_data
        ⟨[{ id := 1, symbol := "AL30", name := "AL30", stock_type := "bono",
            current_price := 9, last_updated := none }], []⟩ 3 4 "AL30"
        ⟨"AL30", some 0, none, none, none⟩
      = ⟨[{ id := 1, symbol := "AL30", name := "AL30", stock_type := "bono",
            current_price := 9, last_updated := none }], []⟩ :=
  update_stock_skips_untruthy_price _ 3 4 "AL30" _ (Or.inr rfl)

/-! ## Theorems: C6 (token lifecycle) -/

/-- Counterexample to C6 as stated: with the token obtained at T = 0 (expiry
0 + 14) and a quote at minute 15, a provider that fails the refresh grant
(HTTP 500) but accepts the password grant makes the client issue TWO token
exchanges before the price lookup, not exactly one. -/
theorem get_bond_price_two_exchanges_counterexample :
    ((get_bond_price
        { password_grant := .ok (some "t2") (some "r2"),
          refresh_grant := .httpError 500,
          quote := fun _ => .ok ⟨some 100, none, none⟩ }
        15 ⟨some "tok", some "ref", some 14⟩ "AL30").2.2
      = [.tokenRefresh, .tokenPassword, .quote "AL30"])
    ∧ ¬ (((get_bond_price
        { password_grant := .ok (some "t2") (some "r2"),
          refresh_grant := .httpError 500,
          quote := fun _ => .ok ⟨some 100, none, none⟩ }
        15 ⟨some "tok", some "ref", some 14⟩ "AL30").2.2.countP
          IOLRequest.isTokenExchange) = 1) := by
  constructor
  · rfl
  · decide

/-- C6 (amended): after an authentication at time T granted a token valid to
T + 14 minutes, a price request at T + 15 — past expiry — performs exactly
one re-authentication token exchange (the refresh grant) before issuing the
price lookup, provided that refresh exchange succeeds; if it fails, the
client falls back to one further password-grant exchange before the lookup. -/
theorem get_bond_price_single_refresh (pv : Provider) (T : ℤ) (st : IOLState)
    (sym : String) (atk rtk : Option String)
    (hta : truthyS st.access_token = true)
    (hexp : st.token_expiry = some (T + 14))
    (href : pv.refresh_grant = .ok atk rtk) :
    (get_bond_price pv (T + 15) st sym).2.2 = [.tokenRefresh, .quote sym] := by
  have hens : ensure_authenticated pv (T + 15) st
      = (true, ⟨atk, rtk, some (T + 15 + 14)⟩, [.tokenRefresh]) := by
    unfold ensure_authenticated
    rw [if_neg (by simp [hta, hexp])]
    rw [if_pos (by rw [hexp]; simp)]
    unfold refresh_access_token
    rw [href]
  unfold get_bond_price
  simp only [hens]
  cases hq : pv.quote sym <;> simp [hq]

/-- Witness for C6's amended theorem at a concrete provider and state. -/
theorem get_bond_price_single_refresh_witness :
    (get_bond_price
        { password_grant := .ok (some "t") (some "r"),
          refresh_grant := .ok (some "t2") (some "r2"),
          quote := fun _ => .ok ⟨some 100, none, none⟩ }
        15 ⟨some "tok", some "ref", some 14⟩ "AL30").2.2
      = [.tokenRefresh, .quote "AL30"] := by
  have h := get_bond_price_single_refresh
    { password_grant := .ok (some "t") (some "r"),
      refresh_grant := .ok (some "t2") (some "r2"),
      quote := fun _ => .ok ⟨some 100, none, none⟩ }
    0 ⟨some "tok", some "ref", some 14⟩ "AL30" (some "t2") (some "r2")
    (by decide) (by norm_num) rfl
  simpa using h

/-! ## Theorems: C5 (batch price fetch) -/

theorem dictInsert_keys (m : List (String × PriceResult)) (k : String) (v : PriceResult) :
    (dictInsert m k v).map Prod.fst =
      if m.any (fun e => e.1 = k) then m.map Prod.fst else m.map Prod.fst ++ [k] := by
  unfold dictInsert
  by_cases h : m.any (fun e => e.1 = k)
  · rw [if_pos h, if_pos h, List.map_map]
    refine List.map_congr_left ?_
    intro e he
    by_cases hk : e.1 = k <;> simp [hk]
  · rw [if_neg h, if_neg h, List.map_append]
    rfl

theorem mem_dictInsert_keys (m : List (String × PriceResult)) (k : String)
    (v : PriceResult) (s : String) :
    s ∈ (dictInsert m k v).map Prod.fst ↔ s ∈ m.map Prod.fst ∨ s = k := by
  rw [dictInsert_keys]
  by_cases h : m.any (fun e => e.1 = k)
  · rw [if_pos h]
    have hk : k ∈ m.map Prod.fst := by
      rcases List.any_eq_true.mp h with ⟨e, he, hek⟩
      exact List.mem_map.mpr ⟨e, he, by simpa using hek⟩
    constructor
    · exact Or.inl
    · rintro (hs | rfl)
      · exact hs
      · exact hk
  · rw [if_neg h]
    simp

theorem dictInsert_keys_nodup (m : List (String × PriceResult)) (k : String)
    (v : PriceResult) (h : (m.map Prod.fst).Nodup) :
    ((dictInsert m k v).map Prod.fst).Nodup := by
  rw [dictInsert_keys]
  by_cases ha : m.any (fun e => e.1 = k)
  · rwa [if_pos ha]
  · rw [if_neg ha]
    refine List.Nodup.append h (List.nodup_singleton k) ?_
    intro a haa hak
    rcases List.mem_map.mp haa with ⟨e, hem, rfl⟩
    have hk : e.1 = k := by simpa using hak
    exact ha (List.any_eq_true.mpr ⟨e, hem, by simp [hk]⟩)

theorem foldl_dictInsert_mem_keys (f : IOLState → String → PriceResult × IOLState)
    (symbols : List String) (acc : List (String × PriceResult) × IOLState) (s : String) :
    (s ∈ (symbols.foldl
        (fun a s2 => (dictInsert a.1 s2 (f a.2 s2).1, (f a.2 s2).2)) acc).1.map Prod.fst)
      ↔ s ∈ acc.1.map Prod.fst ∨ s ∈ symbols := by
  induction symbols generalizing acc with
  | nil => simp
  | cons s2 rest ih =>
    rw [List.foldl_cons, ih, mem_dictInsert_keys]
    simp only [List.mem_cons]
    tauto

theorem foldl_dictInsert_keys_nodup (f : IOLState → String → PriceResult × IOLState)
    (symbols : List String) (acc : List (String × PriceResult) × IOLState)
    (h : (acc.1.map Prod.fst).Nodup) :
    ((symbols.foldl
        (fun a s2 => (dictInsert a.1 s2 (f a.2 s2).1, (f a.2 s2).2)) acc).1.map
      Prod.fst).Nodup := by
  induction symbols generalizing acc with
  | nil => simpa
  | cons s2 rest ih =>
    rw [List.foldl_cons]
    exact ih _ (dictInsert_keys_nodup _ _ _ h)

/-- Counterexample to C5 as stated: an HTTP 200 quote whose payload lacks the
price field is a per-symbol failure per the claim, yet its batch entry
carries a null price with NO error indicator. -/
theorem get_multiple_prices_missing_price_counterexample :
    (get_multiple_prices
        { password_grant := .ok (some "t") (some "r"),
          refresh_grant := .ok (some "t2") (some "r2"),
          quote := fun _ => .ok ⟨none, none, none⟩ }
        0 ["AL30"] ⟨some "tok", some "ref", some 14⟩).1
      = [("AL30", ⟨"AL30", none, none, none, none⟩)] := by
  rfl

/-- C5 (amended): the batch returns exactly one entry per requested symbol
and never raises; a per-symbol HTTP failure, transport failure or
authentication failure yields an entry with an error indicator and a null
price without aborting the remaining symbols, while an HTTP 200 response
yields the payload's (possibly absent) price with no error indicator — a
missing price field is NOT marked with an error. -/
theorem get_multiple_prices_spec :
    (∀ (pv : Provider) (now : ℤ) (st : IOLState) (symbols : List String) (s : String),
        ((get_multiple_prices pv now symbols st).1.map Prod.fst).count s
          = if s ∈ symbols then 1 else 0)
    ∧ (∀ (pv : Provider) (now : ℤ) (st : IOLState) (sym : String),
        ((ensure_authenticated pv now st).1 = false →
          (get_bond_price pv now st sym).1 = ⟨sym, none, none, none, some "Auth failed"⟩)
        ∧ (∀ n : ℕ, (ensure_authenticated pv now st).1 = true →
            pv.quote sym = .httpError n →
            (get_bond_price pv now st sym).1
              = ⟨sym, none, none, none, some ("HTTP " ++ toString n)⟩)
        ∧ (∀ msg : String, (ensure_authenticated pv now st).1 = true →
            pv.quote sym = .exn msg →
            (get_bond_price pv now st sym).1 = ⟨sym, none, none, none, some msg⟩)
        ∧ (∀ payload : QuotePayload, (ensure_authenticated pv now st).1 = true →
            pv.quote sym = .ok payload →
            (get_bond_price pv now st sym).1
              = ⟨sym, payload.ultimoPrecio, payload.variacion, payload.volumen, none⟩)) := by
  constructor
  · intro pv now st symbols s
    have hkey : ∀ s2 : String,
        (s2 ∈ (get_multiple_prices pv now symbols st).1.map Prod.fst) ↔ s2 ∈ symbols := by
      intro s2
      unfold get_multiple_prices
      have h := foldl_dictInsert_mem_keys
        (fun st2 s3 => ((get_bond_price pv now st2 (upper s3)).1,
          (get_bond_price pv now st2 (upper s3)).2.1)) symbols ([], st) s2
      simpa using h
    have hnd : ((get_multiple_prices pv now symbols st).1.map Prod.fst).Nodup := by
      unfold get_multiple_prices
      exact foldl_dictInsert_keys_nodup
        (fun st2 s3 => ((get_bond_price pv now st2 (upper s3)).1,
          (get_bond_price pv now st2 (upper s3)).2.1)) symbols ([], st) (by simp)
    by_cases hmem : s ∈ symbols
    · rw [if_pos hmem]
      exact List.count_eq_one_of_mem hnd ((hkey s).mpr hmem)
    · rw [if_neg hmem]
      exact List.count_eq_zero.mpr (fun hc => hmem ((hkey s).mp hc))
  · intro pv now st sym
    refine ⟨?_, ?_, ?_, ?_⟩
    · intro hfail
      unfold get_bond_price
      simp [hfail]
    · intro n hok hq
      unfold get_bond_price
      simp [hok, hq]
    · intro msg hok hq
      unfold get_bond_price
      simp [hok, hq]
    · intro payload hok hq
      unfold get_bond_price
      simp [hok, hq]

/-- Witness for C5's amended theorem: a 3-symbol batch against a provider
that serves two symbols and returns HTTP 500 for the third yields exactly one
entry per symbol, and the failing symbol's lookup carries `HTTP 500` with a
null price. -/
theorem get_multiple_prices_spec_witness :
    (((get_multiple_prices
        { password_grant := .ok (some "t") (some "r"),
          refresh_grant := .ok (some "t2") (some "r2"),
          quote := fun s => if s = "GD30" then .httpError 500
            else .ok ⟨some 100, none, none⟩ }
        0 ["AL30", "GD30", "AL29"] ⟨some "tok", some "ref", some 14⟩).1.map
      Prod.fst).count "GD30" = if "GD30" ∈ ["AL30", "GD30", "AL29"] then 1 else 0)
    ∧ (get_bond_price
        { password_grant := .ok (some "t") (some "r"),
          refresh_grant := .ok (some "t2") (some "r2"),
          quote := fun s => if s = "GD30" then .httpError 500
            else .ok ⟨some 100, none, none⟩ }
        0 ⟨some "tok", some "ref", some 14⟩ "GD30").1
      = ⟨"GD30", none, none, none, some ("HTTP " ++ toString 500)⟩ := by
  constructor
  · exact get_multiple_prices_spec.1 _ 0 _ ["AL30", "GD30", "AL29"] "GD30"
  · exact (get_multiple_prices_spec.2 _ 0 _ "GD30").2.1 500 (by decide) (by rfl)

/-! ## Theorems: C1 (portfolio value history) -/

theorem day_total_eq_mapped (pss : List PortfolioStock) (history : List PriceHistory)
    (d : ℤ)
    (h3 : ∀ ph ∈ history, ∃ ps ∈ pss, ph.stock_id = ps.stock.id) :
    day_total pss history d = spec_day_total_mapped pss history d := by
  have hLnd : (day_stock_ids history d).Nodup := List.nodup_dedup _
  have hMnd : ((pss.map (fun ps => ps.stock.id)).dedup.filter (fun sid =>
      history.any (fun ph => ph.stock_id = sid ∧ ph.date = d))).Nodup :=
    (List.nodup_dedup _).filter _
  have hmm : ∀ a, a ∈ day_stock_ids history d ↔
      a ∈ (pss.map (fun ps => ps.stock.id)).dedup.filter (fun sid =>
        history.any (fun ph => ph.stock_id = sid ∧ ph.date = d)) := by
    intro a
    unfold day_stock_ids
    simp only [List.mem_dedup, List.mem_filter, List.mem_map, List.any_eq_true,
      decide_eq_true_eq]
    constructor
    · rintro ⟨ph, ⟨hph, hd⟩, ha⟩
      rcases h3 ph hph with ⟨ps, hps, hid⟩
      exact ⟨⟨ps, hps, by rw [← hid]; exact ha⟩, ⟨ph, hph, ha, hd⟩⟩
    · rintro ⟨-, ⟨ph, hph, haid, hd⟩⟩
      exact ⟨ph, ⟨hph, hd⟩, haid⟩
  have hperm := (List.perm_ext_iff_of_nodup hLnd hMnd).mpr hmm
  unfold day_total spec_day_total_mapped
  exact (hperm.map (fun sid => stock_quantity pss sid * day_price history d sid)).sum_eq

/-- Counterexample to C1 as stated: a portfolio holding two lots of the same
instrument (quantities 10 and 5) with one loaded sample, price 100 on day 1
— a state the store permits, since portfolio_stocks has no (portfolio,
stock) uniqueness and holdings are inserted unconditionally.  The endpoint
builds the quantity dict at app.py line 791, so the later lot overwrites the
earlier one and day 1's total is 5 · 100 = 500, while the claim's sum over
instruments of quantity times price aggregates the lots to
(10 + 5) · 100 = 1500. -/
theorem api_portfolio_value_history_duplicate_lots_counterexample :
    (api_portfolio_value_history
        [ { quantity := 10, purchase_price := 90,
            stock := { id := 1, symbol := "A", name := "A", stock_type := "bono",
                       current_price := 100, last_updated := none } },
          { quantity := 5, purchase_price := 80,
            stock := { id := 1, symbol := "A", name := "A", stock_type := "bono",
                       current_price := 100, last_updated := none } } ]
        [⟨1, 100, none, 1⟩] 2
      = [(1, 500)])
    ∧ (spec_value_history
        [ { quantity := 10, purchase_price := 90,
            stock := { id := 1, symbol := "A", name := "A", stock_type := "bono",
                       current_price := 100, last_updated := none } },
          { quantity := 5, purchase_price := 80,
            stock := { id := 1, symbol := "A", name := "A", stock_type := "bono",
                       current_price := 100, last_updated := none } } ]
        [⟨1, 100, none, 1⟩] 2
      = [(1, 1500)])
    ∧ api_portfolio_value_history
        [ { quantity := 10, purchase_price := 90,
            stock := { id := 1, symbol := "A", name := "A", stock_type := "bono",
                       current_price := 100, last_updated := none } },
          { quantity := 5, purchase_price := 80,
            stock := { id := 1, symbol := "A", name := "A", stock_type := "bono",
                       current_price := 100, last_updated := none } } ]
        [⟨1, 100, none, 1⟩] 2
      ≠ spec_value_history
        [ { quantity := 10, purchase_price := 90,
            stock := { id := 1, symbol := "A", name := "A", stock_type := "bono",
                       current_price := 100, last_updated := none } },
          { quantity := 5, purchase_price := 80,
            stock := { id := 1, symbol := "A", name := "A", stock_type := "bono",
                       current_price := 100, last_updated := none } } ]
        [⟨1, 100, none, 1⟩] 2 := by
  have hcode : api_portfolio_value_history
      [ { quantity := 10, purchase_price := 90,
          stock := { id := 1, symbol := "A", name := "A", stock_type := "bono",
                     current_price := 100, last_updated := none } },
        { quantity := 5, purchase_price := 80,
          stock := { id := 1, symbol := "A", name := "A", stock_type := "bono",
                     current_price := 100, last_updated := none } } ]
      [⟨1, 100, none, 1⟩] 2 = [(1, 500)] := by
    norm_num [api_portfolio_value_history, history_dates, sortDates, insertSorted,
      day_total, day_stock_ids, day_price, stock_quantity, round2, List.dedup,
      List.filter, List.getLast?, List.filterMap, List.pwFilter,
      PortfolioStock.current_value]
  have hclaim : spec_value_history
      [ { quantity := 10, purchase_price := 90,
          stock := { id := 1, symbol := "A", name := "A", stock_type := "bono",
                     current_price := 100, last_updated := none } },
        { quantity := 5, purchase_price := 80,
          stock := { id := 1, symbol := "A", name := "A", stock_type := "bono",
                     current_price := 100, last_updated := none } } ]
      [⟨1, 100, none, 1⟩] 2 = [(1, 1500)] := by
    norm_num [spec_value_history, spec_day_total, history_dates, sortDates,
      insertSorted, day_price, List.dedup, List.filter, List.getLast?,
      List.filterMap, List.pwFilter, round2, PortfolioStock.current_value]
  refine ⟨hcode, hclaim, ?_⟩
  rw [hcode, hclaim]
  norm_num

/-- C1 (amended): under the price-history uniqueness invariant (at most one
sample per (instrument, date)) and with samples loaded only for the
portfolio's instruments — the conditions the database schema and the loading
query establish — the emitted value-history series equals the series the
amended specification describes: holdings are collapsed into an instrument →
quantity mapping in which a later lot of the same instrument overwrites an
earlier one; samples are grouped by date; the per-date total is the sum over
instruments having a sample that day of mapped quantity times that day's
price, instruments without a sample contributing nothing; dates are emitted
ascending with totals rounded to 2 decimals, dates with non-positive totals
dropped; and exactly one synthetic point (today, live portfolio value, under
the same 2-decimal rounding) is emitted when no date yields a positive total
while the live value is positive. -/
theorem api_portfolio_value_history_mapped_spec (pss : List PortfolioStock)
    (history : List PriceHistory) (today : ℤ)
    (h1 : (history.map (fun ph => (ph.stock_id, ph.date))).Nodup)
    (h3 : ∀ ph ∈ history, ∃ ps ∈ pss, ph.stock_id = ps.stock.id) :
    api_portfolio_value_history pss history today
      = spec_value_history_mapped pss history today := by
  have htot : ∀ d, day_total pss history d = spec_day_total_mapped pss history d :=
    fun d => day_total_eq_mapped pss history d h3
  unfold api_portfolio_value_history spec_value_history_mapped
  simp only [htot]

/-- Witness for C1's amended theorem at the duplicate-lot portfolio of the
counterexample: the amended statement covers it with no one-holding-per-
instrument hypothesis. -/
theorem api_portfolio_value_history_mapped_spec_witness :
    api_portfolio_value_history
        [ { quantity := 10, purchase_price := 90,
            stock := { id := 1, symbol := "A", name := "A", stock_type := "bono",
                       current_price := 100, last_updated := none } },
          { quantity := 5, purchase_price := 80,
            stock := { id := 1, symbol := "A", name := "A", stock_type := "bono",
                       current_price := 100, last_updated := none } } ]
        [⟨1, 100, none, 1⟩] 2
      = spec_value_history_mapped
        [ { quantity := 10, purchase_price := 90,
            stock := { id := 1, symbol := "A", name := "A", stock_type := "bono",
                       current_price := 100, last_updated := none } },
          { quantity := 5, purchase_price := 80,
            stock := { id := 1, symbol := "A", name := "A", stock_type := "bono",
                       current_price := 100, last_updated := none } } ]
        [⟨1, 100, none, 1⟩] 2 :=
  api_portfolio_value_history_mapped_spec _ _ 2 (by decide) (by decide)

end AppInv
